import Mathlib

/-!
Verification development for the CEFR rewriting browser extension
(two content-script variants: `src/content.js`, the Gemini variant, and
`src/unnamed/part_000`, the OpenAI variant).

Each definition is a shallow embedding of the corresponding JavaScript
function; machine-level DOM facilities (visibility computation, regex
matching on metadata text, attachment to `document.body`) are abstracted
as boolean fields of the element records, exactly as the code consumes
them.
-/

namespace CEFR

/-! ## Generation client: retry loop with exponential backoff

Embeds the retry loop shared verbatim by `fetchRewrittenText`,
`createSummary` (part_000) and `fetchRewrittenText`, `fetchSummaryText`
(content.js):

```js
let response;
for (let i = 0; i < 3; i++) {
    try {
        response = await fetch(...);
        if (response.ok) break;
        if (response.status === 429) {
            await new Promise(r => setTimeout(r, Math.pow(2, i) * 1000));
            continue;
        } else {
            throw new Error(`API error: ...`);
        }
    } catch (e) {
        if (i === 2) throw e;
        await new Promise(r => setTimeout(r, Math.pow(2, i) * 1000));
    }
}
if (!response || !response.ok) {
    throw new Error('Failed to fetch ... after multiple retries.');
}
```

Note: the `throw new Error('API error: ...')` raised for a non-429 error
status is raised inside the `try` block, so it is caught by the loop's
own `catch`; on iterations 0 and 1 the catch waits `2^i * 1000` ms and
lets the loop retry.  Only on iteration 2 is it re-thrown. -/

/-- Outcome of one `fetch` call: a successful (`response.ok`) response
carrying the optional text payload eventually extracted from the JSON
body, a non-ok HTTP response with its status code, or a thrown transport
error. -/
inductive AttemptOutcome where
  | ok (payload : Option String)
  | httpStatus (code : Nat)
  | netError
deriving DecidableEq, Repr

/-- Final outcome of the 3-attempt loop: success (recording on which
0-based attempt the loop broke, and the payload), the re-thrown
`API error` exception with the offending status, the re-thrown transport
exception, or the post-loop `Failed to fetch ... after multiple retries.`
exception. -/
inductive RetryResult where
  | success (attemptIndex : Nat) (payload : Option String)
  | apiError (code : Nat)
  | transportError
  | retriesExhausted
deriving DecidableEq, Repr

/-- Observable trace of one run of the retry loop: its result, the list
of backoff waits (ms, in order) and the number of `fetch` calls made. -/
structure RetryTrace where
  result : RetryResult
  waitsMs : List Nat
  fetchCalls : Nat
deriving DecidableEq, Repr

/-- What one loop iteration does, as written in the source: `break` on
`response.ok`; wait `2^i * 1000` and continue on status 429; throw
`API error` on any other non-ok status — but that throw is caught by the
iteration's own `catch`, which re-throws only when `i === 2` and
otherwise waits `2^i * 1000` and continues.  A transport error is caught
the same way. -/
inductive StepOutcome where
  | brk (payload : Option String)
  | contWait (ms : Nat)
  | thrownApi (code : Nat)
  | thrownNet
deriving DecidableEq, Repr

/-- One iteration of the loop body at index `i` (`i ∈ {0, 1, 2}`). -/
def attemptStep (i : Nat) (o : AttemptOutcome) : StepOutcome :=
  match o with
  | .ok p => .brk p
  | .httpStatus c =>
      if c = 429 then .contWait (2 ^ i * 1000)
      else if i = 2 then .thrownApi c
      else .contWait (2 ^ i * 1000)
  | .netError =>
      if i = 2 then .thrownNet
      else .contWait (2 ^ i * 1000)

/-- The whole loop on the outcomes of the three (potential) fetch
attempts, followed by the post-loop `if (!response || !response.ok)`
check.  When the loop finishes without `break` (which can only happen
through the 429 branch on iteration 2, after its wait), the last
response is not ok, so the post-loop check throws
`Failed to fetch ... after multiple retries.`. -/
def retryLoop (o0 o1 o2 : AttemptOutcome) : RetryTrace :=
  match attemptStep 0 o0 with
  | .brk p => ⟨.success 0 p, [], 1⟩
  | .thrownApi c => ⟨.apiError c, [], 1⟩
  | .thrownNet => ⟨.transportError, [], 1⟩
  | .contWait w0 =>
    match attemptStep 1 o1 with
    | .brk p => ⟨.success 1 p, [w0], 2⟩
    | .thrownApi c => ⟨.apiError c, [w0], 2⟩
    | .thrownNet => ⟨.transportError, [w0], 2⟩
    | .contWait w1 =>
      match attemptStep 2 o2 with
      | .brk p => ⟨.success 2 p, [w0, w1], 3⟩
      | .thrownApi c => ⟨.apiError c, [w0, w1], 3⟩
      | .thrownNet => ⟨.transportError, [w0, w1], 3⟩
      | .contWait w2 => ⟨.retriesExhausted, [w0, w1, w2], 3⟩

/-! ## Payload handling at the two call sites (part_000)

`fetchRewrittenText` (part_000) ends with

```js
const rewrittenText = result.choices?.[0]?.message?.content;
if (rewrittenText) {
    return rewrittenText.trim().replace(/^["']|["']$/g, '');
}
return originalText; // Return original on failure
```

`createSummary` (part_000) ends with

```js
return data.choices?.[0]?.message?.content?.trim() || 'Summary failed.';
```

and `summarizePageContent` then reports
`{ success: true, summaryLength: summary.length }`. -/

/-- A JavaScript whitespace character (the common ones occurring in
DOM text). -/
def isJsWhitespace (c : Char) : Bool :=
  c = ' ' || c = Char.ofNat 9 || c = Char.ofNat 10 || c = Char.ofNat 13

/-- JavaScript `String.prototype.trim`: strip leading and trailing
whitespace. -/
def jsTrim (s : String) : String :=
  String.mk (((s.toList.dropWhile isJsWhitespace).reverse.dropWhile isJsWhitespace).reverse)

/-- JavaScript `String.prototype.toLowerCase` (ASCII letters, which is
all the class-name tables compare against). -/
def jsToLower (s : String) : String :=
  String.mk (s.toList.map Char.toLower)

/-- A quote character: `"` or `'` (the class `["']`). -/
def isQuoteChar (c : Char) : Bool :=
  c = Char.ofNat 34 || c = Char.ofNat 39

/-- Embeds `s.replace(/^["']|["']$/g, '')`: drop one leading and one
trailing quote character. -/
def stripWrappingQuotes (s : String) : String :=
  let s1 := match s.toList with
    | c :: rest => if isQuoteChar c then String.mk rest else s
    | [] => s
  match s1.toList.reverse with
  | c :: restRev => if isQuoteChar c then String.mk restRev.reverse else s1
  | [] => s1

/-- Tail of part_000's `fetchRewrittenText`: JS truthiness of the raw
payload string (empty string and `undefined` are falsy) decides between
the cleaned rewritten text and the element's original text. -/
def rewrittenTextFromPayload (payload : Option String) (originalText : String) : String :=
  match payload with
  | some s => if s = "" then originalText else stripWrappingQuotes (jsTrim s)
  | none => originalText

/-- Tail of part_000's `createSummary`: `content?.trim() || 'Summary failed.'`. -/
def summaryFromPayload (payload : Option String) : String :=
  match payload with
  | some s => if jsTrim s = "" then "Summary failed." else jsTrim s
  | none => "Summary failed."

/-- The `{success, summaryLength}` result shape of part_000's
`summarizePageContent`. -/
structure SummaryResult where
  success : Bool
  summaryLength : Nat
deriving DecidableEq, Repr

/-- part_000's `summarizePageContent` given that `createSummary`'s HTTP
exchange succeeded with the given payload: it always reports
`success: true` with the length of whatever `createSummary` returned. -/
def summarizeResultP0 (payload : Option String) : SummaryResult :=
  { success := true, summaryLength := (summaryFromPayload payload).length }

/-! ## DOM node model and `replaceElementTextSimple`

An element's inner content is a forest of nodes; an element node carries
its (lowercase) tag, its attribute list, and its children.  `cloneNode
(true)` is the identity on these values. -/

/-- A DOM node: a text node, or an element with tag, attributes and
children. -/
inductive Node where
  | text (s : String) : Node
  | elem (tag : String) (attrs : List (String × String)) (children : List Node) : Node
deriving Repr

mutual

/-- The anchor (`a`-tagged) descendants of a node, in document order —
`node.querySelectorAll('a')` restricted to one subtree root, the root
itself included when it is an anchor. -/
def anchorsOfNode : Node → List Node
  | Node.text _ => []
  | Node.elem tag attrs children =>
      (if tag = "a" then [Node.elem tag attrs children] else []) ++ anchorsOfList children

/-- Embeds `element.querySelectorAll('a')` over an element's child forest:
all anchor descendants in document order. -/
def anchorsOfList : List Node → List Node
  | [] => []
  | n :: rest => anchorsOfNode n ++ anchorsOfList rest

end

/-- The `href` attribute of a node (for anchors). -/
def getHref (n : Node) : Option String :=
  match n with
  | Node.text _ => none
  | Node.elem _ attrs _ => attrs.lookup "href"

/-- In any parsed HTML document anchors never nest; this checks that no
anchor inside the forest contains a further anchor. -/
def noNestedAnchors (children : List Node) : Bool :=
  (anchorsOfList children).all fun a =>
    match a with
    | Node.text _ => true
    | Node.elem _ _ kids => (anchorsOfList kids).isEmpty

/-- Embeds `replaceElementTextSimple(element, newText)` (part_000 lines
331–357, and the second — hence effective — definition in content.js
lines 523–551, whose `linksToPreserve.length > 0` branch produces the
same content and whose empty branch `element.textContent = trimmed`
coincides with this when there are no links): clone every anchor
descendant, clear the element, insert the trimmed new text as a single
text node, then append each preserved anchor preceded by a space text
node.  The result is the element's new child forest. -/
def replaceElementTextSimple (children : List Node) (newText : String) : List Node :=
  let linksToPreserve := anchorsOfList children
  Node.text (jsTrim newText) ::
    linksToPreserve.foldr (fun link acc => Node.text " " :: link :: acc) []

/-! ## Content selection (part_000)

`storeOriginalTexts` (part_000 lines 102–132) filters candidates with
`shouldProcessElementStrict`, a truthy `textContent`, trimmed length
`> 25`, `isVisible`, `!isInNav`, `!isInteractive` and
`!isRandomTextBlock`.  Browser-computed facts (visibility, the
`closest(...)` container tests, the interactivity test, and the regex
metadata patterns) enter the predicates only as booleans, so they are
fields of the element record; tag, class and text are kept as data
because the length thresholds and tag/class tests read them. -/

/-- A candidate element, as the part_000 selection predicates consume
it.  `tag` is `element.tagName.toLowerCase()`; `matchesMetaPattern`
abstracts the `metaPatterns` regex tests of `isRandomTextBlock`;
`inMainContent`, `visible`, `inNav`, `interactive` abstract
`isInMainContent`, `isVisible`, `isInNav`, `isInteractive`. -/
structure PageElem where
  id : Nat
  tag : String
  className : String
  textContent : String
  innerHTML : String
  visible : Bool
  inNav : Bool
  interactive : Bool
  inMainContent : Bool
  matchesMetaPattern : Bool
deriving DecidableEq, Repr

/-- Embeds `tagName.match(/^h[1-6]$/)` on the lowercased tag. -/
def isHeadingTag (t : String) : Bool :=
  ["h1", "h2", "h3", "h4", "h5", "h6"].contains t

/-- Embeds `String.prototype.includes`. -/
def containsSubstring (s sub : String) : Bool :=
  s.toList.tails.any fun t => sub.toList.isPrefixOf t

/-- The `excludeClasses` table of `shouldProcessElementStrict`. -/
def excludeClasses : List String :=
  ["meta", "time", "date", "author", "byline", "caption", "label", "btn", "button", "icon"]

/-- Embeds `shouldProcessElementStrict` (part_000 lines 398–414). -/
def shouldProcessElementStrict (e : PageElem) : Bool :=
  let tagName := e.tag
  let className := jsToLower e.className
  let text := jsTrim e.textContent
  if text.length < 30 && !isHeadingTag tagName then false
  else if excludeClasses.any (fun c => containsSubstring className c) then false
  else if isHeadingTag tagName || tagName == "p" then e.inMainContent
  else true

/-- Embeds `isRandomTextBlock` (part_000 lines 433–449). -/
def isRandomTextBlock (e : PageElem) : Bool :=
  let text := jsTrim e.textContent
  if text.length < 40 && !isHeadingTag e.tag then true
  else e.matchesMetaPattern

/-- The full per-element condition of part_000's `storeOriginalTexts`
(lines 113–119). -/
def selectForCapture (e : PageElem) : Bool :=
  shouldProcessElementStrict e &&
  (e.textContent != "") &&
  (25 < (jsTrim e.textContent).length) &&
  e.visible &&
  !e.inNav &&
  !e.interactive &&
  !isRandomTextBlock e

/-! ## Snapshot store, reset and rewrite result (part_000) -/

/-- One entry of part_000's `originalTexts` map: the element (by
identity), its `textContent` at capture time, its `innerHTML` at capture
time, and its lowercased tag. -/
structure EntryP0 where
  elemId : Nat
  originalText : String
  originalHTML : String
  tagName : String
deriving DecidableEq, Repr

/-- part_000's `storeOriginalTexts` (lines 102–132): it first runs
`originalTexts.clear()` — the previous store is discarded — and then
re-captures every currently qualifying element from the live document,
keyed by a fresh running index. -/
def storeOriginalTextsP0 (dom : List PageElem) (_store : List (Nat × EntryP0)) : List (Nat × EntryP0) :=
  ((dom.filter selectForCapture).enum).map fun p =>
    (p.1, { elemId := p.2.id, originalText := p.2.textContent,
            originalHTML := p.2.innerHTML, tagName := p.2.tag })

/-- Write `innerHTML` of the element with the given identity. -/
def setInnerHTMLP0 (dom : List PageElem) (elemId : Nat) (html : String) : List PageElem :=
  dom.map fun e => if e.id = elemId then { e with innerHTML := html } else e

/-- part_000's session state: the live document, the `originalTexts`
map and the `isRewritten` flag. -/
structure SessionP0 where
  dom : List PageElem
  store : List (Nat × EntryP0)
  isRewritten : Bool
deriving DecidableEq, Repr

/-- part_000's `resetPageContent` (lines 471–479): a no-op unless the
session is rewritten; otherwise it writes each entry's `originalHTML`
back into its element (with no attachment check) and clears the
`isRewritten` flag.  It does not clear `originalTexts`. -/
def resetPageContentP0 (s : SessionP0) : SessionP0 :=
  if !s.isRewritten then s
  else
    { s with
      dom := s.store.foldl (fun d p => setInnerHTMLP0 d p.2.elemId p.2.originalHTML) s.dom,
      isRewritten := false }

/-- The `{success, elementsRewritten}` result shape of part_000's
`rewritePageContent`. -/
structure RewriteResult where
  success : Bool
  elementsRewritten : Nat
deriving DecidableEq, Repr

/-- In `rewriteTextElementsParallel` (part_000 lines 59–99) an entry is
attempted only when `originalText.trim().length > 10`. -/
def entryAttemptsRewrite (e : EntryP0) : Bool :=
  10 < (jsTrim e.originalText).length

/-- The entries whose patch actually applied, given which generation
calls completed without throwing (`fetchOk`, by entry index): an
attempted entry whose call succeeds is patched via
`replaceElementTextSimple`; a failing one is caught and keeps its
original text; a short one is skipped.  A non-throwing
`fetchRewrittenText` always yields a patch, since it substitutes the
original text itself on an empty payload. -/
def appliedPatchCount (store : List (Nat × EntryP0)) (fetchOk : Nat → Bool) : Nat :=
  (store.filter fun p => entryAttemptsRewrite p.2 && fetchOk p.1).length

/-- Entries skipped by the `> 10` length guard. -/
def skippedShortCount (store : List (Nat × EntryP0)) : Nat :=
  (store.filter fun p => !entryAttemptsRewrite p.2).length

/-- Attempted entries whose generation call threw (caught and logged;
the element keeps its original text). -/
def failedPatchCount (store : List (Nat × EntryP0)) (fetchOk : Nat → Bool) : Nat :=
  (store.filter fun p => entryAttemptsRewrite p.2 && !fetchOk p.1).length

/-- part_000's `rewritePageContent` result (lines 37–56) when the
pipeline itself does not throw: `success: true` and
`elementsRewritten: originalTexts.size` — the snapshot size, regardless
of which per-element calls failed or were skipped. -/
def rewritePageContentP0Result (store : List (Nat × EntryP0)) : RewriteResult :=
  { success := true, elementsRewritten := store.length }

/-! ## Snapshot store, capture and reset (content.js)

content.js keys `originalTexts` by element identity and stores
`el.innerHTML`.  Element identity is the `id` field; the selection facts
it reads (`isVisible`, `isInNav`, the trimmed text length) and
attachment to `document.body` are fields. -/

/-- An element as content.js's snapshot/restore path sees it. -/
structure ElemC where
  id : Nat
  attached : Bool
  visible : Bool
  inNav : Bool
  textTrimLen : Nat
  innerHTML : String
deriving DecidableEq, Repr

/-- content.js `storeOriginalTexts`'s filter (line 105):
`isVisible(el) && !isInNav(el) && el.textContent.trim().length > 50`. -/
def eligibleForCaptureC (e : ElemC) : Bool :=
  e.visible && !e.inNav && 50 < e.textTrimLen

/-- content.js `storeOriginalTexts` (lines 103–111): for each
qualifying element, `if (!originalTexts.has(el)) originalTexts.set(el,
el.innerHTML)` — an existing entry is never overwritten; a new entry is
appended in insertion order. -/
def storeOriginalTextsC (dom : List ElemC) (store : List (Nat × String)) : List (Nat × String) :=
  dom.foldl
    (fun st e =>
      if eligibleForCaptureC e then
        if (st.lookup e.id).isSome then st else st ++ [(e.id, e.innerHTML)]
      else st)
    store

/-- A mutation of the live document between capture and reset: a
rewrite patch writing an element's inner content (which also changes its
text), or an external script detaching an element. -/
inductive DomOp where
  | writeInner (id : Nat) (html : String) (textTrimLen : Nat)
  | detach (id : Nat)
deriving DecidableEq, Repr

/-- Apply one document mutation. -/
def applyDomOp (dom : List ElemC) (op : DomOp) : List ElemC :=
  match op with
  | .writeInner i html len =>
      dom.map fun e => if e.id = i then { e with innerHTML := html, textTrimLen := len } else e
  | .detach i =>
      dom.map fun e => if e.id = i then { e with attached := false } else e

/-- Apply a sequence of document mutations in order. -/
def applyDomOps (dom : List ElemC) (ops : List DomOp) : List ElemC :=
  ops.foldl applyDomOp dom

/-- content.js's session state. -/
structure SessionC where
  dom : List ElemC
  store : List (Nat × String)
  isRewritten : Bool
deriving DecidableEq, Repr

/-- One iteration of content.js `resetPageContent`'s `forEach`:
`if (document.body.contains(element)) element.innerHTML = originalHTML`. -/
def restoreEntryC (dom : List ElemC) (entry : Nat × String) : List ElemC :=
  dom.map fun e =>
    if e.id == entry.1 && e.attached then { e with innerHTML := entry.2 } else e

/-- content.js `resetPageContent` (lines 114–123): restore every stored
entry whose element is still attached, clear the store, clear the
rewritten flag (it also emits a progress-0 event, not part of this
state). -/
def resetPageContentC (s : SessionC) : SessionC :=
  { dom := s.store.foldl restoreEntryC s.dom, store := [], isRewritten := false }

/-- First element with the given identity. -/
def findElemC (dom : List ElemC) (i : Nat) : Option ElemC :=
  dom.find? fun e => e.id == i

/-! ## Progress emissions (part_000)

`rewritePageContent` emits 10, then `rewriteTextElementsParallel` emits
`10 + Math.floor((processedElements / totalElements) * 80)` once per
settled element — `processedElements` is incremented in the same
synchronous step, so the k-th emission uses counter value k no matter
which element of a wave settles — and `rewritePageContent` emits 100 on
success.  JavaScript computes the quotient in floating point and floors
it; `Nat` division is the same floor and is monotone in the numerator
exactly as the floated version is.  `summarizePageContent` emits 25, 75,
100 on success. -/

/-- The progress percents emitted by one successful part_000 rewrite
run over `totalElements` captured elements, in emission order. -/
def rewriteProgressEmissionsP0 (totalElements : Nat) : List Nat :=
  10 :: ((List.range totalElements).map fun k => 10 + ((k + 1) * 80) / totalElements) ++ [100]

/-- The progress percents emitted by one successful part_000 summarize
run. -/
def summarizeProgressEmissionsP0 : List Nat := [25, 75, 100]

/-! ## Inline style mutation of `replaceElementTextSimple` (part_000)

part_000's `replaceElementTextSimple` ends with

```js
element.style.transition = 'opacity 0.2s ease';
element.style.opacity = '0.9';
setTimeout(() => { element.style.opacity = '1'; }, 100);
```

while `resetPageContent` writes only `innerHTML`. -/

/-- An element with its inner content and the two inline style
properties part_000 touches. -/
structure StyledElem where
  children : List Node
  styleTransition : String
  styleOpacity : String
deriving Repr

/-- part_000's `replaceElementTextSimple` in full: the content
replacement of `replaceElementTextSimple` plus the inline style writes
(opacity as of the synchronous part of the call). -/
def replaceElementTextSimpleStyled (el : StyledElem) (newText : String) : StyledElem :=
  { children := replaceElementTextSimple el.children newText,
    styleTransition := "opacity 0.2s ease",
    styleOpacity := "0.9" }

/-- The deferred `setTimeout` callback setting opacity back to `'1'`. -/
def opacityTimerFire (el : StyledElem) : StyledElem :=
  { el with styleOpacity := "1" }

/-- The effect of `resetPageContent` on one captured element: only
`innerHTML` is written back; the inline style attribute is untouched. -/
def resetStyledElem (el : StyledElem) (originalChildren : List Node) : StyledElem :=
  { el with children := originalChildren }

/-! ## Theorems -/

/-- C9: when the backend returns HTTP 429 on attempts 1 and 2 and
succeeds on attempt 3, the retry loop performs exactly two waits of
strictly increasing duration — `2^0 * 1000 = 1000` ms then
`2^1 * 1000 = 2000` ms — makes three fetch calls of which the third is
the single successful one, and returns that successful response's
payload. -/
theorem c9_backoff_correctness :
    retryLoop (.httpStatus 429) (.httpStatus 429) (.ok (some "rewritten")) =
      ⟨.success 2 (some "rewritten"), [1000, 2000], 3⟩ ∧
    (retryLoop (.httpStatus 429) (.httpStatus 429) (.ok (some "rewritten"))).waitsMs.length = 2 ∧
    List.Chain' (· < ·)
      (retryLoop (.httpStatus 429) (.httpStatus 429) (.ok (some "rewritten"))).waitsMs := by
  refine ⟨by decide, by decide, ?_⟩
  have h : (retryLoop (.httpStatus 429) (.httpStatus 429) (.ok (some "rewritten"))).waitsMs
      = [1000, 2000] := by decide
  rw [h]
  simp [List.chain'_cons]

/-- C3 counterexample: a non-success, non-429 status (HTTP 500) on the
first attempt does NOT make the client fail immediately: the `throw`
for that status is caught by the loop's own `catch`, which waits and
retries, so a second attempt runs and here succeeds.  The claimed
behavior would be an immediate fatal result after exactly one fetch. -/
theorem c3_counterexample :
    (retryLoop (.httpStatus 500) (.ok (some "recovered")) (.httpStatus 500)).fetchCalls = 2 ∧
    retryLoop (.httpStatus 500) (.ok (some "recovered")) (.httpStatus 500) =
      ⟨.success 1 (some "recovered"), [1000], 2⟩ := by decide

/-- C3 amended: a non-429 error status on attempt 1 or 2 is caught by
the loop's own `catch` and retried after the usual backoff wait (so at
least two fetches happen whenever the first attempt is not ok); only a
non-429 error status on the final attempt propagates as the fatal
`API error`; exhausting all attempts with 429 responses raises the
transient `Failed to fetch ... after multiple retries.` error, after a
third wait of 4000 ms. -/
theorem c3_amended (c : Nat) (hc : ¬c = 429) (o1 o2 : AttemptOutcome) :
    2 ≤ (retryLoop (.httpStatus c) o1 o2).fetchCalls ∧
    retryLoop (.httpStatus 429) (.httpStatus 429) (.httpStatus c) =
      ⟨.apiError c, [1000, 2000], 3⟩ ∧
    retryLoop (.httpStatus 429) (.httpStatus 429) (.httpStatus 429) =
      ⟨.retriesExhausted, [1000, 2000, 4000], 3⟩ := by
  have h0 : attemptStep 0 (.httpStatus c) = .contWait 1000 := by
    by_cases h : c = 429 <;> simp [attemptStep, h]
  refine ⟨?_, ?_, by decide⟩
  · simp only [retryLoop, h0]
    cases h1 : attemptStep 1 o1 with
    | brk p => simp
    | thrownApi c1 => simp
    | thrownNet => simp
    | contWait w1 => cases h2 : attemptStep 2 o2 <;> simp
  · simp [retryLoop, attemptStep, hc]

/-- C3 witness: the amended theorem at attempt outcomes
(500, ok, ok). -/
theorem c3_amended_witness :
    2 ≤ (retryLoop (.httpStatus 500) (.ok none) (.ok none)).fetchCalls ∧
    retryLoop (.httpStatus 429) (.httpStatus 429) (.httpStatus 500) =
      ⟨.apiError 500, [1000, 2000], 3⟩ ∧
    retryLoop (.httpStatus 429) (.httpStatus 429) (.httpStatus 429) =
      ⟨.retriesExhausted, [1000, 2000, 4000], 3⟩ :=
  c3_amended 500 (by decide) (.ok none) (.ok none)

/-- C4 counterexample: on an empty/undefined summary payload the
summarize path does not surface a failure — `createSummary` substitutes
the placeholder string `'Summary failed.'` and `summarizePageContent`
reports `success: true` with that placeholder's length. -/
theorem c4_counterexample :
    summaryFromPayload none = "Summary failed." ∧
    (summarizeResultP0 none).success = true ∧
    (summarizeResultP0 none).summaryLength = 15 := by decide

/-- C4 amended: on an empty or undefined payload the rewrite call site
substitutes the element's original text (as claimed), while the
summarize call site substitutes the placeholder text `'Summary failed.'`
and still reports success, rather than surfacing a failure. -/
theorem c4_amended (originalText : String) :
    rewrittenTextFromPayload none originalText = originalText ∧
    rewrittenTextFromPayload (some "") originalText = originalText ∧
    summaryFromPayload none = "Summary failed." ∧
    summaryFromPayload (some "") = "Summary failed." ∧
    (summarizeResultP0 none).success = true := by
  refine ⟨rfl, ?_, rfl, by decide, rfl⟩
  simp [rewrittenTextFromPayload]

/-- C5 counterexample: one captured element whose text is long enough
to be attempted but whose generation call fails (the failure is caught
and the element keeps its original text): `rewritePageContent` still
returns `elementsRewritten = 1` — the snapshot size — although zero
patches applied. -/
theorem c5_counterexample :
    (rewritePageContentP0Result
        [(0, { elemId := 0,
               originalText := "This stored text is clearly longer than ten characters.",
               originalHTML := "<b>original</b>", tagName := "p" })]).elementsRewritten = 1 ∧
    appliedPatchCount
        [(0, { elemId := 0,
               originalText := "This stored text is clearly longer than ten characters.",
               originalHTML := "<b>original</b>", tagName := "p" })]
        (fun _ => false) = 0 := by decide

/-- C5 amended: `elementsRewritten` reports the total snapshot size
(`originalTexts.size`), which decomposes into the patches that actually
applied, the attempted-but-failed elements (which kept their original
text) and the skipped short elements — failures and skips are counted
in, contrary to the claim. -/
theorem c5_amended (store : List (Nat × EntryP0)) (fetchOk : Nat → Bool) :
    (rewritePageContentP0Result store).success = true ∧
    (rewritePageContentP0Result store).elementsRewritten =
      appliedPatchCount store fetchOk + failedPatchCount store fetchOk +
        skippedShortCount store := by
  refine ⟨rfl, ?_⟩
  show store.length = _
  induction store with
  | nil => rfl
  | cons p rest ih =>
    simp only [appliedPatchCount, failedPatchCount, skippedShortCount,
      List.filter_cons] at ih ⊢
    cases h1 : entryAttemptsRewrite p.2 <;> cases h2 : fetchOk p.1 <;>
      simp [h1, h2] <;> omega

/-- Anchor listing distributes over forest concatenation. -/
theorem anchorsOfList_append (l1 l2 : List Node) :
    anchorsOfList (l1 ++ l2) = anchorsOfList l1 ++ anchorsOfList l2 := by
  induction l1 with
  | nil => rfl
  | cons n rest ih => simp [anchorsOfList, ih]

mutual

theorem anchorsOfNode_shape : ∀ (n : Node), ∀ a ∈ anchorsOfNode n,
    ∃ attrs kids, a = Node.elem "a" attrs kids
  | Node.text _ => by simp [anchorsOfNode]
  | Node.elem tag attrs kids => by
      intro a ha
      simp only [anchorsOfNode] at ha
      rcases List.mem_append.1 ha with h | h
      · by_cases htag : tag = "a"
        · subst htag
          simp only [eq_self_iff_true, if_true, List.mem_singleton] at h
          exact ⟨attrs, kids, h⟩
        · simp [htag] at h
      · exact anchorsOfList_shape kids a h

theorem anchorsOfList_shape : ∀ (ns : List Node), ∀ a ∈ anchorsOfList ns,
    ∃ attrs kids, a = Node.elem "a" attrs kids
  | [] => by simp [anchorsOfList]
  | n :: rest => by
      intro a ha
      simp only [anchorsOfList] at ha
      rcases List.mem_append.1 ha with h | h
      · exact anchorsOfNode_shape n a h
      · exact anchorsOfList_shape rest a h

end

/-- An anchor with no nested anchors lists exactly itself. -/
theorem anchorsOfNode_of_anchor (attrs : List (String × String)) (kids : List Node)
    (h : anchorsOfList kids = []) :
    anchorsOfNode (Node.elem "a" attrs kids) = [Node.elem "a" attrs kids] := by
  simp [anchorsOfNode, h]

/-- The trailing space-separated link block contributed by
`replaceElementTextSimple` lists exactly the preserved links. -/
theorem anchors_of_preserved_links (links : List Node)
    (h : ∀ l ∈ links, anchorsOfNode l = [l]) :
    anchorsOfList (links.foldr (fun link acc => Node.text " " :: link :: acc) []) = links := by
  induction links with
  | nil => rfl
  | cons l rest ih =>
      have h1 : anchorsOfNode l = [l] := h l (by simp)
      simp only [List.foldr, anchorsOfList, anchorsOfNode, h1, List.nil_append,
        List.singleton_append]
      rw [ih fun x hx => h x (by simp [hx])]

/-- C7: link survival.  For any element content whose anchors do not
nest (the invariant of every parsed HTML document) and any generated
text, after `replaceElementTextSimple` the element contains exactly the
same anchor nodes — same count, same `href` values — appended after the
inserted trimmed text as trailing siblings, each preceded by a space
text node, regardless of the generated text. -/
theorem c7_link_survival (children : List Node) (newText : String)
    (h : noNestedAnchors children = true) :
    anchorsOfList (replaceElementTextSimple children newText) = anchorsOfList children ∧
    (anchorsOfList (replaceElementTextSimple children newText)).map getHref =
      (anchorsOfList children).map getHref ∧
    (anchorsOfList (replaceElementTextSimple children newText)).length =
      (anchorsOfList children).length ∧
    replaceElementTextSimple children newText =
      Node.text (jsTrim newText) ::
        (anchorsOfList children).foldr (fun link acc => Node.text " " :: link :: acc) [] := by
  have hlinks : ∀ l ∈ anchorsOfList children, anchorsOfNode l = [l] := by
    intro l hl
    obtain ⟨attrs, kids, rfl⟩ := anchorsOfList_shape children l hl
    apply anchorsOfNode_of_anchor
    have hall := List.all_eq_true.1 h _ hl
    simpa [List.isEmpty_iff] using hall
  have key : anchorsOfList (replaceElementTextSimple children newText) =
      anchorsOfList children := by
    simp only [replaceElementTextSimple, anchorsOfList, anchorsOfNode, List.nil_append]
    exact anchors_of_preserved_links _ hlinks
  exact ⟨key, by rw [key], by rw [key], rfl⟩

/-- A paragraph holding one anchor, used to witness C7. -/
def c7Example : List Node :=
  [Node.text "Read the ",
   Node.elem "a" [("href", "https://example.org/manual")] [Node.text "manual"],
   Node.text " before starting."]

/-- C7 witness: a paragraph with one anchor, rewritten; the anchor list
is preserved. -/
theorem c7_witness :
    noNestedAnchors c7Example = true ∧
    anchorsOfList (replaceElementTextSimple c7Example "Read the manual first.") =
      anchorsOfList c7Example :=
  ⟨rfl, (c7_link_survival c7Example "Read the manual first." rfl).1⟩

/-- C10: part_000's `replaceElementTextSimple` also writes the
element's inline style (`transition`, `opacity`), and `resetPageContent`
restores only the inner content; so after a rewrite followed by a reset
the inner markup is back to its captured original while the inline
`transition` style differs from its pre-rewrite value (whenever that
value was not already the exact string the patch writes). -/
theorem c10_style_not_restored (el : StyledElem) (newText : String)
    (h : el.styleTransition ≠ "opacity 0.2s ease") :
    (resetStyledElem (opacityTimerFire (replaceElementTextSimpleStyled el newText))
        el.children).children = el.children ∧
    (resetStyledElem (opacityTimerFire (replaceElementTextSimpleStyled el newText))
        el.children).styleTransition ≠ el.styleTransition := by
  refine ⟨rfl, ?_⟩
  show "opacity 0.2s ease" ≠ el.styleTransition
  exact fun hh => h hh.symm

/-- C10 witness: a concrete element with an empty inline transition. -/
theorem c10_style_not_restored_witness :
    (resetStyledElem (opacityTimerFire (replaceElementTextSimpleStyled
        ⟨[Node.text "hello world"], "", "1"⟩ "hi"))
        [Node.text "hello world"]).children = [Node.text "hello world"] ∧
    (resetStyledElem (opacityTimerFire (replaceElementTextSimpleStyled
        ⟨[Node.text "hello world"], "", "1"⟩ "hi"))
        [Node.text "hello world"]).styleTransition ≠ "" :=
  c10_style_not_restored ⟨[Node.text "hello world"], "", "1"⟩ "hi" (by decide)

/-- C8: monotonic progress.  Within one successful part_000 pipeline
run — rewrite over any number of captured elements, or summarize —
every emitted percent is ≥ the previously emitted one and the final
emission is 100.  (Concurrent completions within a wave all increment
the shared counter in the same synchronous step that computes their
emission, so the k-th emission always uses counter value k.) -/
theorem c8_monotonic_progress (totalElements : Nat) :
    List.Chain' (· ≤ ·) (rewriteProgressEmissionsP0 totalElements) ∧
    (rewriteProgressEmissionsP0 totalElements).getLast? = some 100 ∧
    List.Chain' (· ≤ ·) summarizeProgressEmissionsP0 ∧
    summarizeProgressEmissionsP0.getLast? = some 100 := by
  have hle100 : ∀ k, k < totalElements → 10 + ((k + 1) * 80) / totalElements ≤ 100 := by
    intro k hk
    have h1 : (k + 1) * 80 ≤ totalElements * 80 := Nat.mul_le_mul_right 80 hk
    have h2 : ((k + 1) * 80) / totalElements ≤ totalElements * 80 / totalElements :=
      Nat.div_le_div_right h1
    have h3 : totalElements * 80 / totalElements ≤ 80 := by
      rcases Nat.eq_zero_or_pos totalElements with h | h
      · subst h; simp
      · rw [Nat.mul_comm, Nat.mul_div_cancel 80 h]
    omega
  have hmono : ∀ a b : Nat, a < b →
      10 + ((a + 1) * 80) / totalElements ≤ 10 + ((b + 1) * 80) / totalElements := by
    intro a b hab
    have h1 : (a + 1) * 80 ≤ (b + 1) * 80 := Nat.mul_le_mul_right 80 (by omega)
    exact Nat.add_le_add_left (Nat.div_le_div_right h1) 10
  refine ⟨?_, ?_, ?_, by rfl⟩
  · rw [List.chain'_iff_pairwise]
    unfold rewriteProgressEmissionsP0
    refine List.pairwise_cons.2 ⟨?_, ?_⟩
    · intro a ha
      rcases List.mem_append.1 ha with h | h
      · obtain ⟨k, _, rfl⟩ := List.mem_map.1 h
        exact Nat.le_add_right 10 _
      · simp only [List.mem_singleton] at h
        omega
    · refine List.pairwise_append.2 ⟨?_, ?_, ?_⟩
      · exact (List.pairwise_lt_range totalElements).map _ fun a b hab => hmono a b hab
      · simp
      · intro x hx y hy
        obtain ⟨k, hk, rfl⟩ := List.mem_map.1 hx
        simp only [List.mem_singleton] at hy
        subst hy
        exact hle100 k (List.mem_range.1 hk)
  · exact List.getLast?_concat _
  · simp [summarizeProgressEmissionsP0, List.chain'_cons]

/-- A heading whose trimmed text (14 characters) is under the 25-char
floor but which satisfies every non-length selection rule of part_000,
used as the C6 counterexample. -/
def c6ShortHeading : PageElem :=
  { id := 1, tag := "h1", className := "",
    textContent := "Quick overview",
    innerHTML := "Quick overview",
    visible := true, inNav := false, interactive := false,
    inMainContent := true, matchesMetaPattern := false }

/-- C6 counterexample: this heading passes `shouldProcessElementStrict`
(headings are exempt from its 30-char floor), is not a random text
block (headings are exempt from the 40-char floor), and satisfies
visibility and all other non-length rules — yet `storeOriginalTexts`
does not select it, because its universal `> 25` trimmed-length check
applies to headings as well. -/
theorem c6_counterexample :
    shouldProcessElementStrict c6ShortHeading = true ∧
    isRandomTextBlock c6ShortHeading = false ∧
    c6ShortHeading.visible = true ∧
    c6ShortHeading.inNav = false ∧
    c6ShortHeading.interactive = false ∧
    (c6ShortHeading.textContent != "") = true ∧
    selectForCapture c6ShortHeading = false := by decide

/-- The amended length rule: headings are subject to the
`storeOriginalTexts` floor too, so they require trimmed length > 25;
body text must clear the > 25, ≥ 30 and ≥ 40 floors simultaneously,
hence requires trimmed length ≥ 40. -/
def lengthFloorC6 (e : PageElem) : Bool :=
  if isHeadingTag e.tag then 25 < (jsTrim e.textContent).length
  else 40 ≤ (jsTrim e.textContent).length

/-- The non-length selection rules of part_000: no excluded class name,
main-content containment for paragraphs and headings, visible, not in
navigation, not interactive, no metadata pattern. -/
def nonLengthRulesC6 (e : PageElem) : Bool :=
  !(excludeClasses.any fun c => containsSubstring (jsToLower e.className) c) &&
  (!(isHeadingTag e.tag || e.tag == "p") || e.inMainContent) &&
  e.visible && !e.inNav && !e.interactive && !e.matchesMetaPattern

/-- C6 amended: part_000's selection is exactly the non-length rules
conjoined with a length floor that applies to headings as well —
headings need trimmed length > 25 and body text needs trimmed length
≥ 40; headings are exempt only from the 30- and 40-char floors, not
from the length floor altogether. -/
theorem c6_amended (e : PageElem) :
    selectForCapture e = (nonLengthRulesC6 e && lengthFloorC6 e) := by
  by_cases htc : e.textContent = ""
  · have h0 : (jsTrim "").length = 0 := rfl
    rw [Bool.eq_iff_iff]
    simp [selectForCapture, nonLengthRulesC6, lengthFloorC6, htc, h0]
  · have htc' : (e.textContent != "") = true := by simpa using htc
    rw [Bool.eq_iff_iff]
    cases hh : isHeadingTag e.tag <;>
      cases hexcl : excludeClasses.any fun c => containsSubstring (jsToLower e.className) c <;>
      cases hp : e.tag == "p" <;>
      cases hmc : e.inMainContent <;>
      cases hv : e.visible <;>
      cases hn : e.inNav <;>
      cases hi : e.interactive <;>
      cases hm : e.matchesMetaPattern <;>
      simp [selectForCapture, shouldProcessElementStrict, isRandomTextBlock,
        nonLengthRulesC6, lengthFloorC6, hh, hexcl, hp, hmc, hv, hn, hi, hm, htc'] <;>
      omega

/-- Unfolding of one capture step (content.js). -/
theorem storeOriginalTextsC_cons (e : ElemC) (rest : List ElemC) (store : List (Nat × String)) :
    storeOriginalTextsC (e :: rest) store =
      storeOriginalTextsC rest
        (if eligibleForCaptureC e then
          (if (store.lookup e.id).isSome then store else store ++ [(e.id, e.innerHTML)])
         else store) := rfl

/-- A key found on the left of an association-list append is still
found, with the same value, in the whole list. -/
theorem lookup_append_left {β : Type} (l1 l2 : List (Nat × β)) (k : Nat) (b : β)
    (h : l1.lookup k = some b) : (l1 ++ l2).lookup k = some b := by
  rw [List.lookup_append, h]
  rfl

/-- C2 amended (the behavior content.js actually has): content.js's
capture never overwrites an existing entry — any entry present before a
capture call is present with the same recorded markup afterwards, no
matter how the live document was mutated in between. -/
theorem c2_amended (dom : List ElemC) (store : List (Nat × String)) (i : Nat) (v : String)
    (h : store.lookup i = some v) :
    (storeOriginalTextsC dom store).lookup i = some v := by
  induction dom generalizing store with
  | nil => exact h
  | cons e rest ih =>
    rw [storeOriginalTextsC_cons]
    apply ih
    by_cases he : eligibleForCaptureC e = true
    · simp only [he, if_true]
      by_cases hs : (store.lookup e.id).isSome = true
      · simpa [hs] using h
      · simp only [hs, if_false]
        exact lookup_append_left _ _ _ _ h
    · simpa [he] using h

/-- C2 witness: an entry captured earlier survives a re-capture over a
mutated document with its original value. -/
theorem c2_amended_witness :
    (storeOriginalTextsC
      [{ id := 3, attached := true, visible := true, inNav := false,
         textTrimLen := 60, innerHTML := "mutated" }]
      [(3, "orig")]).lookup 3 = some "orig" :=
  c2_amended
    [{ id := 3, attached := true, visible := true, inNav := false,
       textTrimLen := 60, innerHTML := "mutated" }]
    [(3, "orig")] 3 "orig" rfl

/-- A qualifying paragraph before any rewrite, for the C2
counterexample. -/
def c2ElemBefore : PageElem :=
  { id := 7, tag := "p", className := "",
    textContent := "This example paragraph easily contains more than forty characters of text.",
    innerHTML := "<em>before</em>", visible := true, inNav := false,
    interactive := false, inMainContent := true, matchesMetaPattern := false }

/-- The same element after its content was mutated (e.g. by a partial
rewrite), for the C2 counterexample. -/
def c2ElemMutated : PageElem :=
  { c2ElemBefore with innerHTML := "<em>mutated-by-rewrite</em>" }

/-- C2 counterexample: part_000's `storeOriginalTexts` begins with
`originalTexts.clear()`, so calling it a second time after the live DOM
was mutated re-captures the mutated markup, overwriting the recorded
original — the entry no longer equals its value after the first
capture. -/
theorem c2_counterexample :
    ((storeOriginalTextsP0 [c2ElemBefore] []).lookup 0).map EntryP0.originalHTML
      = some "<em>before</em>" ∧
    ((storeOriginalTextsP0 [c2ElemMutated]
        (storeOriginalTextsP0 [c2ElemBefore] [])).lookup 0).map EntryP0.originalHTML
      = some "<em>mutated-by-rewrite</em>" ∧
    ("<em>mutated-by-rewrite</em>" : String) ≠ "<em>before</em>" :=
  ⟨rfl, rfl, by decide⟩

/-- Evaluates `findElemC` over a pointwise map that preserves identities. -/
theorem findElemC_map_id_preserving (dom : List ElemC) (f : ElemC → ElemC)
    (hf : ∀ e, (f e).id = e.id) (i : Nat) :
    findElemC (dom.map f) i = (findElemC dom i).map f := by
  unfold findElemC
  have hp : ((fun e : ElemC => e.id == i) ∘ f) = fun e : ElemC => e.id == i := by
    funext e
    simp [Function.comp, hf]
  rw [List.find?_map, hp]

/-- Restoring one entry, seen through `findElemC`. -/
theorem findElemC_restoreEntryC (dom : List ElemC) (entry : Nat × String) (i : Nat) :
    findElemC (restoreEntryC dom entry) i =
      (findElemC dom i).map fun e =>
        if e.id == entry.1 && e.attached then { e with innerHTML := entry.2 } else e := by
  unfold restoreEntryC
  exact findElemC_map_id_preserving dom _ (fun e => by split <;> rfl) i

/-- Restoring an entry for a different key leaves the lookup of this
key unchanged. -/
theorem findElemC_restore_ne (dom : List ElemC) (k : Nat) (v : String) (i : Nat)
    (hik : ¬i = k) :
    findElemC (restoreEntryC dom (k, v)) i = findElemC dom i := by
  rw [findElemC_restoreEntryC]
  cases hfd : findElemC dom i with
  | none => rfl
  | some e =>
    have he : e.id = i := by simpa using List.find?_some hfd
    simp [he, hik]

/-- Restoring an entry for this key patches the (attached) element
found at this key. -/
theorem findElemC_restore_eq (dom : List ElemC) (v : String) (i : Nat) (e : ElemC)
    (hfd : findElemC dom i = some e) (hatt : e.attached = true) :
    findElemC (restoreEntryC dom (i, v)) i = some { e with innerHTML := v } := by
  rw [findElemC_restoreEntryC, hfd]
  have he : e.id = i := by simpa using List.find?_some hfd
  simp [he, hatt]

/-- A whole restore pass over entries whose keys all differ from `i`
leaves the lookup of `i` unchanged. -/
theorem foldl_restore_of_not_mem (store : List (Nat × String)) (dom : List ElemC) (i : Nat)
    (h : ∀ p ∈ store, ¬i = p.1) :
    findElemC (store.foldl restoreEntryC dom) i = findElemC dom i := by
  induction store generalizing dom with
  | nil => rfl
  | cons p rest ih =>
    obtain ⟨k, v⟩ := p
    rw [List.foldl_cons]
    rw [ih _ fun q hq => h q (List.mem_cons_of_mem _ hq)]
    exact findElemC_restore_ne dom k v i (h (k, v) (List.mem_cons_self _ _))

/-- The central restore lemma: if the store's keys are distinct and the
store holds `html` for key `i`, the restore pass rewrites the (attached)
element found at `i` to exactly that recorded markup. -/
theorem foldl_restore_lookup (store : List (Nat × String)) (dom : List ElemC) (i : Nat)
    (html : String) (e : ElemC)
    (hnd : (store.map Prod.fst).Nodup)
    (hlk : store.lookup i = some html)
    (hfd : findElemC dom i = some e) (hatt : e.attached = true) :
    findElemC (store.foldl restoreEntryC dom) i = some { e with innerHTML := html } := by
  induction store generalizing dom with
  | nil => simp at hlk
  | cons p rest ih =>
    obtain ⟨k, v⟩ := p
    rw [List.foldl_cons]
    rw [List.map_cons] at hnd
    rcases List.nodup_cons.1 hnd with ⟨hknot, hndrest⟩
    by_cases hik : i = k
    · subst hik
      have hv : v = html := by simpa using hlk
      subst hv
      have h2 : ∀ q ∈ rest, ¬i = q.1 := by
        intro q hq hiq
        have hmem : q.1 ∈ rest.map Prod.fst := List.mem_map_of_mem Prod.fst hq
        rw [← hiq] at hmem
        exact hknot hmem
      rw [foldl_restore_of_not_mem rest _ i h2]
      exact findElemC_restore_eq dom v i e hfd hatt
    · have hbeq : (i == k) = false := by simpa using hik
      have hlk' : rest.lookup i = some html := by
        rw [List.lookup_cons, hbeq] at hlk
        exact hlk
      refine ih _ hndrest hlk' ?_
      rw [findElemC_restore_ne dom k v i hik]
      exact hfd

/-- Capture keeps the store's keys distinct: a new entry is appended
only when its key is absent. -/
theorem capture_keys_nodup (dom : List ElemC) (store : List (Nat × String))
    (h : (store.map Prod.fst).Nodup) :
    ((storeOriginalTextsC dom store).map Prod.fst).Nodup := by
  induction dom generalizing store with
  | nil => exact h
  | cons e rest ih =>
    rw [storeOriginalTextsC_cons]
    apply ih
    by_cases he : eligibleForCaptureC e = true
    · simp only [he, if_true]
      by_cases hs : (store.lookup e.id).isSome = true
      · simpa [hs]
      · rw [if_neg hs, List.map_append]
        refine List.Nodup.append h (by simp) ?_
        intro a ha hb
        simp only [List.map_cons, List.map_nil, List.mem_singleton] at hb
        subst hb
        have hnone : store.lookup e.id = none := by
          cases hopt : store.lookup e.id with
          | none => rfl
          | some b => rw [hopt] at hs; simp at hs
        obtain ⟨q, hq, hqa⟩ := List.mem_map.1 ha
        have := (List.lookup_eq_none_iff.1 hnone) q hq
        simp only [bne_iff_ne, ne_eq] at this
        exact this hqa.symm
    · simpa [he]

/-- Every entry of a capture from `dom0` records the `innerHTML` some
eligible element of `dom0` had at capture time — i.e. the pre-rewrite
markup. -/
theorem capture_lookup_provenance (dom : List ElemC) (store : List (Nat × String))
    (i : Nat) (html : String)
    (h : (storeOriginalTextsC dom store).lookup i = some html) :
    store.lookup i = some html ∨
      ∃ e ∈ dom, e.id = i ∧ e.innerHTML = html ∧ eligibleForCaptureC e = true := by
  induction dom generalizing store with
  | nil => exact Or.inl h
  | cons e rest ih =>
    rw [storeOriginalTextsC_cons] at h
    rcases ih _ h with h' | ⟨e', he', h1, h2, h3⟩
    · by_cases he : eligibleForCaptureC e = true
      · simp only [he, if_true] at h'
        by_cases hs : (store.lookup e.id).isSome = true
        · rw [if_pos hs] at h'
          exact Or.inl h'
        · rw [if_neg hs] at h'
          rw [List.lookup_append] at h'
          cases hst : store.lookup i with
          | some b =>
            rw [hst] at h'
            exact Or.inl (by simpa using h')
          | none =>
            rw [hst] at h'
            simp only [Option.none_or] at h'
            rw [List.lookup_cons] at h'
            cases hbeq : (i == e.id) with
            | false => rw [hbeq] at h'; simp at h'
            | true =>
              rw [hbeq] at h'
              have hie : e.id = i := by
                have hi : i = e.id := by simpa using hbeq
                exact hi.symm
              exact Or.inr ⟨e, List.mem_cons_self _ _, hie, by simpa using h', he⟩
      · rw [if_neg he] at h'
        exact Or.inl h'
    · exact Or.inr ⟨e', List.mem_cons_of_mem _ he', h1, h2, h3⟩

/-- First element of a part_000 document with the given identity. -/
def findElemP0 (dom : List PageElem) (i : Nat) : Option PageElem :=
  dom.find? fun e => e.id == i

/-- Evaluates `findElemP0` over a pointwise map that preserves
identities. -/
theorem findElemP0_map_id_preserving (dom : List PageElem) (f : PageElem → PageElem)
    (hf : ∀ e, (f e).id = e.id) (i : Nat) :
    findElemP0 (dom.map f) i = (findElemP0 dom i).map f := by
  unfold findElemP0
  have hp : ((fun e : PageElem => e.id == i) ∘ f) = fun e : PageElem => e.id == i := by
    funext e
    simp [Function.comp, hf]
  rw [List.find?_map, hp]

/-- Writing one element's `innerHTML`, seen through `findElemP0`. -/
theorem findElemP0_setInnerHTML (dom : List PageElem) (j : Nat) (html : String) (i : Nat) :
    findElemP0 (setInnerHTMLP0 dom j html) i =
      (findElemP0 dom i).map fun e =>
        if e.id = j then { e with innerHTML := html } else e := by
  unfold setInnerHTMLP0
  exact findElemP0_map_id_preserving dom _ (fun e => by split <;> rfl) i

/-- Writing a different element's `innerHTML` leaves the lookup of this
identity unchanged. -/
theorem findElemP0_setInner_ne (dom : List PageElem) (j : Nat) (html : String) (i : Nat)
    (hij : ¬i = j) :
    findElemP0 (setInnerHTMLP0 dom j html) i = findElemP0 dom i := by
  rw [findElemP0_setInnerHTML]
  cases hfd : findElemP0 dom i with
  | none => rfl
  | some e =>
    have he : e.id = i := by simpa using List.find?_some hfd
    simp [he, hij]

/-- Writing this element's `innerHTML` patches the element found at
this identity — with no attachment condition, matching part_000's
unconditional restore. -/
theorem findElemP0_setInner_eq (dom : List PageElem) (html : String) (i : Nat) (e : PageElem)
    (hfd : findElemP0 dom i = some e) :
    findElemP0 (setInnerHTMLP0 dom i html) i = some { e with innerHTML := html } := by
  rw [findElemP0_setInnerHTML, hfd]
  have he : e.id = i := by simpa using List.find?_some hfd
  simp [he]

/-- A part_000 restore pass over entries whose elements all differ from
`i` leaves the lookup of `i` unchanged. -/
theorem foldl_setInner_of_not_mem (store : List (Nat × EntryP0)) (dom : List PageElem)
    (i : Nat) (h : ∀ p ∈ store, ¬i = p.2.elemId) :
    findElemP0 (store.foldl (fun d p => setInnerHTMLP0 d p.2.elemId p.2.originalHTML) dom) i
      = findElemP0 dom i := by
  induction store generalizing dom with
  | nil => rfl
  | cons q rest ih =>
    rw [List.foldl_cons]
    rw [ih _ fun p hp => h p (List.mem_cons_of_mem _ hp)]
    exact findElemP0_setInner_ne dom q.2.elemId q.2.originalHTML i
      (h q (List.mem_cons_self _ _))

/-- The part_000 restore pass writes every entry's recorded
`originalHTML` back into its element, unconditionally, provided the
entries reference distinct elements (DOM node identities are distinct,
and part_000's capture stores each selected node once). -/
theorem foldl_setInner_restores (store : List (Nat × EntryP0)) (dom : List PageElem)
    (p : Nat × EntryP0) (e : PageElem)
    (hnd : (store.map fun q => q.2.elemId).Nodup)
    (hp : p ∈ store)
    (hfd : findElemP0 dom p.2.elemId = some e) :
    findElemP0 (store.foldl (fun d q => setInnerHTMLP0 d q.2.elemId q.2.originalHTML) dom)
        p.2.elemId = some { e with innerHTML := p.2.originalHTML } := by
  induction store generalizing dom with
  | nil => simp at hp
  | cons q rest ih =>
    rw [List.map_cons] at hnd
    rcases List.nodup_cons.1 hnd with ⟨hknot, hndrest⟩
    rw [List.foldl_cons]
    rcases List.mem_cons.1 hp with hpq | hprest
    · subst hpq
      have h2 : ∀ r ∈ rest, ¬p.2.elemId = r.2.elemId := by
        intro r hr hir
        have hmem : r.2.elemId ∈ rest.map fun q => q.2.elemId :=
          List.mem_map_of_mem _ hr
        rw [← hir] at hmem
        exact hknot hmem
      rw [foldl_setInner_of_not_mem rest _ p.2.elemId h2]
      exact findElemP0_setInner_eq dom p.2.originalHTML p.2.elemId e hfd
    · have hne : ¬p.2.elemId = q.2.elemId := by
        intro hir
        have hmem : p.2.elemId ∈ rest.map fun q => q.2.elemId :=
          List.mem_map_of_mem _ hprest
        rw [hir] at hmem
        exact hknot hmem
      refine ih _ hndrest hprest ?_
      rw [findElemP0_setInner_ne dom q.2.elemId q.2.originalHTML p.2.elemId hne]
      exact hfd

/-- C1 amended: in content.js, after capture and any sequence of
document mutations, one `resetPageContent` call (i) empties the store,
(ii) clears the rewritten flag, (iii) for every recorded entry, the
recorded markup is byte-for-byte the `innerHTML` some eligible element
had at capture time, and (iv) every recorded element still attached is
restored to exactly that recorded markup.  In part_000, by contrast,
`resetPageContent` on a rewritten session clears the flag and restores
every entry's element to its recorded `originalHTML` unconditionally —
no attachment check — but leaves the snapshot store untouched
(clause v; stated for stores whose entries reference distinct
elements, the invariant of DOM node identity). -/
theorem c1_amended (dom0 : List ElemC) (ops : List DomOp) (i : Nat) (html : String)
    (hlk : (storeOriginalTextsC dom0 []).lookup i = some html) :
    (resetPageContentC ⟨applyDomOps dom0 ops, storeOriginalTextsC dom0 [], true⟩).store = [] ∧
    (resetPageContentC ⟨applyDomOps dom0 ops, storeOriginalTextsC dom0 [],
        true⟩).isRewritten = false ∧
    (∃ e ∈ dom0, e.id = i ∧ e.innerHTML = html ∧ eligibleForCaptureC e = true) ∧
    (∀ e', findElemC (applyDomOps dom0 ops) i = some e' → e'.attached = true →
      findElemC (resetPageContentC ⟨applyDomOps dom0 ops, storeOriginalTextsC dom0 [],
          true⟩).dom i = some { e' with innerHTML := html }) ∧
    (∀ s : SessionP0, s.isRewritten = true →
      (resetPageContentP0 s).store = s.store ∧ (resetPageContentP0 s).isRewritten = false ∧
      ((s.store.map fun q => q.2.elemId).Nodup →
        ∀ p ∈ s.store, ∀ e, findElemP0 s.dom p.2.elemId = some e →
          findElemP0 (resetPageContentP0 s).dom p.2.elemId =
            some { e with innerHTML := p.2.originalHTML })) := by
  refine ⟨rfl, rfl, ?_, ?_, ?_⟩
  · rcases capture_lookup_provenance dom0 [] i html hlk with h | h
    · simp at h
    · exact h
  · intro e' hfd hatt
    exact foldl_restore_lookup _ _ i html e'
      (capture_keys_nodup dom0 [] (by simp)) hlk hfd hatt
  · intro s hs
    refine ⟨by simp [resetPageContentP0, hs], by simp [resetPageContentP0, hs], ?_⟩
    intro hnd p hp e hfd
    have hdom : (resetPageContentP0 s).dom =
        s.store.foldl (fun d q => setInnerHTMLP0 d q.2.elemId q.2.originalHTML) s.dom := by
      simp [resetPageContentP0, hs]
    rw [hdom]
    exact foldl_setInner_restores s.store s.dom p e hnd hp hfd

/-- The single-element document used to witness C1. -/
def c1DomEx : List ElemC :=
  [{ id := 0, attached := true, visible := true, inNav := false,
     textTrimLen := 60, innerHTML := "<p>original words</p>" }]

/-- The rewrite patch applied to it. -/
def c1OpsEx : List DomOp := [DomOp.writeInner 0 "<p>rewritten</p>" 42]

/-- A rewritten part_000 session with one snapshot entry, used both by
the C1 witness (for the unconditional-restore clause) and by the C1
counterexample. -/
def c1SessionEx : SessionP0 :=
  { dom := [{ id := 0, tag := "p", className := "", textContent := "tt",
              innerHTML := "<p>now</p>", visible := true, inNav := false,
              interactive := false, inMainContent := true, matchesMetaPattern := false }],
    store := [(0, { elemId := 0, originalText := "tt", originalHTML := "<p>orig</p>",
                    tagName := "p" })],
    isRewritten := true }

/-- C1 witness: capture, patch, reset on a concrete content.js document
— the element gets its original markup back and the store is emptied —
and reset on a concrete rewritten part_000 session — the store is kept
and the element's markup is written back to the recorded original. -/
theorem c1_amended_witness :
    findElemC (resetPageContentC ⟨applyDomOps c1DomEx c1OpsEx,
        storeOriginalTextsC c1DomEx [], true⟩).dom 0 =
      some { id := 0, attached := true, visible := true, inNav := false,
             textTrimLen := 42, innerHTML := "<p>original words</p>" } ∧
    (resetPageContentC ⟨applyDomOps c1DomEx c1OpsEx,
        storeOriginalTextsC c1DomEx [], true⟩).store = [] ∧
    (resetPageContentP0 c1SessionEx).store = c1SessionEx.store ∧
    findElemP0 (resetPageContentP0 c1SessionEx).dom 0 =
      some { id := 0, tag := "p", className := "", textContent := "tt",
             innerHTML := "<p>orig</p>", visible := true, inNav := false,
             interactive := false, inMainContent := true, matchesMetaPattern := false } := by
  have h := c1_amended c1DomEx c1OpsEx 0 "<p>original words</p>" rfl
  have h4 := h.2.2.2.1
  have h5 := h.2.2.2.2 c1SessionEx rfl
  have hfd : findElemC (applyDomOps c1DomEx c1OpsEx) 0 =
      some { id := 0, attached := true, visible := true, inNav := false,
             textTrimLen := 42, innerHTML := "<p>rewritten</p>" } := rfl
  refine ⟨by simpa using h4 _ hfd rfl, h.1, h5.1, ?_⟩
  have hfd0 : findElemP0 c1SessionEx.dom 0 =
      some { id := 0, tag := "p", className := "", textContent := "tt",
             innerHTML := "<p>now</p>", visible := true, inNav := false,
             interactive := false, inMainContent := true, matchesMetaPattern := false } := rfl
  have hres := h5.2.2 (by decide)
      (0, { elemId := 0, originalText := "tt", originalHTML := "<p>orig</p>", tagName := "p" })
      (List.mem_cons_self _ _) _ hfd0
  simpa using hres

/-- C1 counterexample: part_000's `resetPageContent` clears the
rewritten flag but does not clear the snapshot store — after the reset
the store still holds its entry, while the claim requires the store to
be cleared by the same call. -/
theorem c1_counterexample :
    (resetPageContentP0 c1SessionEx).isRewritten = false ∧
    (resetPageContentP0 c1SessionEx).store.length = 1 ∧
    (resetPageContentP0 c1SessionEx).store = c1SessionEx.store :=
  ⟨rfl, rfl, rfl⟩

end CEFR
